import Mathlib

set_option maxRecDepth 8192

/-!
# Verification of the MidiKraft patch-database engine

Shallow embedding of the C++ sources of the MidiKraft-database repository
(`PatchDatabase.cpp`, `CategoryBitfield.cpp`, `JsonSerialization.cpp`) in Lean 4,
together with theorems settling the specification claims about the engine.

Conventions of the embedding:
* `std::set<Category>` values are modelled as `Finset` over the category identity
  (category name as `String`, or an abstract numeric id where only set algebra
  matters).  The helpers `category_union` / `category_intersection` /
  `category_difference` used by `PatchDatabase.cpp` come from the sibling
  MidiKraft library and denote the standard set operations, exactly as the
  specification's `∪ ∩ −` notation states.
* Machine integers are modelled as `Nat` / `Int`; bit masks stay below `2^63`
  in every reachable configuration considered here, so no overflow reduction
  is needed except where noted.
* Database tables are modelled as lists of row records; SQL statements become
  the corresponding pure list transformations.
* The logger (`SimpleLogger::postMessage`) is modelled as an output list of
  message strings where a claim talks about diagnostics.
-/

namespace MidiKraft

/-! ## Update-choice bitmask (PatchDatabase.h, enum UpdateChoice) -/

def UPDATE_NAME : Nat := 1
def UPDATE_CATEGORIES : Nat := 2
def UPDATE_HIDDEN : Nat := 4
def UPDATE_DATA : Nat := 8
def UPDATE_FAVORITE : Nat := 16
def UPDATE_ALL : Nat := UPDATE_NAME ||| UPDATE_CATEGORIES ||| UPDATE_HIDDEN ||| UPDATE_DATA ||| UPDATE_FAVORITE

/-! ## Patch holders and rows

`PatchHolderE` carries exactly the fields of a `PatchHolder` (resp. of a row of
the `patches` table) that the merge logic reads or writes: name, category set,
user-decision set, hidden flag, favorite tri-state and the payload bytes.
Category sets are at the `std::set<Category>` level (the bitfield codec is a
separate component, embedded below). -/

structure PatchHolderE where
  name : String
  categories : Finset Nat
  userDecisions : Finset Nat
  hidden : Bool
  favorite : Int
  dataBytes : List Nat
deriving DecidableEq

/-- Modelled from the spec: `category_union` of the sibling MidiKraft library
(set union of two `std::set<Category>`), as used by `calculateMergedCategories`. -/
def category_union (a b : Finset Nat) : Finset Nat := a ∪ b

/-- Modelled from the spec: `category_intersection` of the sibling MidiKraft
library (set intersection of two `std::set<Category>`). -/
def category_intersection (a b : Finset Nat) : Finset Nat := a ∩ b

/-- Modelled from the spec: `category_difference` of the sibling MidiKraft
library (set difference of two `std::set<Category>`). -/
def category_difference (a b : Finset Nat) : Finset Nat := a \ b

/-- `PatchDataBaseImpl::calculateMergedCategories` (PatchDatabase.cpp:627-654).
Returns the incoming patch (`newPatch`) with its `categories` replaced by the
merged category set and its `userDecisions` replaced by the union of both
sides' user decisions, exactly mirroring the sequence of set operations in the
source. -/
def calculateMergedCategories (newPatch existingPatch : PatchHolderE) : PatchHolderE :=
  let newPatchesUserDecided := category_intersection newPatch.categories newPatch.userDecisions
  let newPatchesAutomatic := category_difference newPatch.categories newPatch.userDecisions
  let oldUserDecided := category_intersection existingPatch.categories existingPatch.userDecisions
  let newAutomaticWithoutExistingOverride := category_difference newPatchesAutomatic existingPatch.userDecisions
  let oldUserDecidedWithoutNewOverride := category_difference oldUserDecided newPatch.userDecisions
  let newCategories := category_union newPatchesUserDecided newAutomaticWithoutExistingOverride
  let finalResult := category_union newCategories oldUserDecidedWithoutNewOverride
  let patchWithCats := { newPatch with categories := finalResult }
  { patchWithCats with
      userDecisions := category_union patchWithCats.userDecisions existingPatch.userDecisions }

/-- `PatchDataBaseImpl::calculateMergedFavorite` (PatchDatabase.cpp:656-665).
`-1` is the DONTKNOW tri-state value. -/
def calculateMergedFavorite (newPatch existingPatch : PatchHolderE) : Int :=
  if newPatch.favorite = -1 then existingPatch.favorite else newPatch.favorite

/-- `PatchDataBaseImpl::updatePatch` (PatchDatabase.cpp:667-706), restricted to
its effect on the stored row: for each bit of `updateChoices` the corresponding
column of the row is overwritten.  When `UPDATE_CATEGORIES` is set, the values
bound to `:CAT`/`:CUD` are taken from `calculateMergedCategories newPatch
existingPatch` (the source mutates `newPatch` in place before binding).  When
`updateChoices` is zero the function does nothing. -/
def updatePatch (newPatch existingPatch : PatchHolderE) (updateChoices : Nat)
    (row : PatchHolderE) : PatchHolderE :=
  if updateChoices ≠ 0 then
    let merged := if updateChoices &&& UPDATE_CATEGORIES ≠ 0 then
        calculateMergedCategories newPatch existingPatch
      else newPatch
    { row with
      categories := if updateChoices &&& UPDATE_CATEGORIES ≠ 0 then merged.categories else row.categories
      userDecisions := if updateChoices &&& UPDATE_CATEGORIES ≠ 0 then merged.userDecisions else row.userDecisions
      name := if updateChoices &&& UPDATE_NAME ≠ 0 then newPatch.name else row.name
      hidden := if updateChoices &&& UPDATE_HIDDEN ≠ 0 then newPatch.hidden else row.hidden
      dataBytes := if updateChoices &&& UPDATE_DATA ≠ 0 then newPatch.dataBytes else row.dataBytes
      favorite := if updateChoices &&& UPDATE_FAVORITE ≠ 0 then
          calculateMergedFavorite newPatch existingPatch
        else row.favorite }
  else row

/-! ## The categories table (PatchDatabase.cpp)

A row of the SQL table `categories(bitIndex INTEGER UNIQUE, name TEXT,
color TEXT, active INTEGER)`; `CategoryDefinition` of the library carries the
same fields (`id` is the bit index). -/

structure CategoryDefRow where
  id : Int
  name : String
  color : String
  isActive : Bool
deriving DecidableEq

/-- `PatchDataBaseImpl::getNextBitindex` (PatchDatabase.cpp:424-439), together
with the diagnostics it posts to the logger.  The SQL statement
`SELECT MAX(bitIndex) + 1 as maxbitindex FROM categories` yields NULL on an
empty table, which `getInt()` reads as `0`; otherwise it yields the maximal
stored bit index plus one.  The query always returns a row, so the trailing
"Unexpected program error" branch of the source is unreachable. -/
def getNextBitindexLog (bitIndexes : List Int) : Int × List String :=
  let maxbitindex : Int :=
    match bitIndexes.max? with
    | none => 0
    | some m => m + 1
  if maxbitindex < 63 then
    (maxbitindex, [])
  else
    (-1, ["You have exhausted the 63 possible categories, it is no longer possible to create new ones in this database. Consider splitting the database via PatchInterchangeFormat files"])

/-- The integer returned by `PatchDataBaseImpl::getNextBitindex`. -/
def getNextBitindex (bitIndexes : List Int) : Int :=
  (getNextBitindexLog bitIndexes).fst

/-- One iteration of the loop of `PatchDataBaseImpl::updateCategories`
(PatchDatabase.cpp:441-475): if a row with the definition's bit index exists
the row is updated (`UPDATE categories SET ... WHERE bitindex = :BIT`),
otherwise the definition is inserted as a new row. -/
def upsertCategoryDef (table : List CategoryDefRow) (c : CategoryDefRow) : List CategoryDefRow :=
  if table.any (fun r => r.id = c.id) then
    table.map (fun r => if r.id = c.id then { r with name := c.name, color := c.color, isActive := c.isActive } else r)
  else
    table ++ [c]

/-- `PatchDataBaseImpl::updateCategories` (PatchDatabase.cpp:441-475): upserts
every supplied definition into the `categories` table, in order, inside one
transaction.  There is no capacity check anywhere in this function. -/
def updateCategories (table : List CategoryDefRow) (newdefs : List CategoryDefRow) : List CategoryDefRow :=
  newdefs.foldl upsertCategoryDef table

/-! ## CategoryBitfield (CategoryBitfield.cpp)

`bitNames_` is the vector of currently active category definitions; in
`PatchDataBaseImpl::getCategories` (PatchDatabase.cpp:386-422) it is built from
the rows of the `categories` table with `active != 0`, in ascending `bitIndex`
order.  A category value is identified by its name (`Category::category`);
`std::set<Category>` values appear as `Finset String`, and where the source
iterates over such a set we iterate over the corresponding sorted list. -/

structure BitName where
  name : String
  bitIndex : Int
  color : String
deriving DecidableEq

/-- `CategoryBitfield::bitIndexForCategory` (CategoryBitfield.cpp:69-76):
linear scan for the first definition with a matching name; `-1` when absent. -/
def bitIndexForCategory (bitNames : List BitName) (category : String) : Int :=
  match bitNames.find? (fun bn => category = bn.name) with
  | some bn => bn.bitIndex
  | none => -1

/-- `CategoryBitfield::categorySetAsBitfield` (CategoryBitfield.cpp:44-58):
OR together `1 << bitindex` for every category of the set whose name resolves
to a bit index; categories with no active definition are skipped.  The mask is
a `uint64` in the source; all reachable bit indexes are below 63, so `Nat`
carries it faithfully. -/
def categorySetAsBitfield (bitNames : List BitName) (categories : List String) : Nat :=
  categories.foldl
    (fun mask cat =>
      let bitindex := bitIndexForCategory bitNames cat
      if bitindex ≠ -1 then mask ||| (1 <<< bitindex.toNat) else mask)
    0

/-- `CategoryBitfield::makeSetOfCategoriesFromBitfield` (CategoryBitfield.cpp:28-42):
for each bit `i` in `0..62` that is set in the bitfield, insert the category of
`bitNames_[i]` — the definition at **vector position** `i`, not the definition
whose `bitIndex` field equals `i`; when `i` is outside the vector the source
hits `jassertfalse` and drops the bit. -/
def makeSetOfCategoriesFromBitfield (bitNames : List BitName) (bitfield : Nat) : Finset String :=
  (List.range 63).foldl
    (fun cats i =>
      if bitfield.testBit i then
        match bitNames[i]? with
        | some bn => insert bn.name cats
        | none => cats
      else cats)
    ∅

/-! ## Merge hit handling (PatchDatabase.cpp:743-790)

When an incoming patch's fingerprint matches an existing row,
`mergePatchesIntoDatabase` computes the effective update mask (clearing
`UPDATE_NAME` when the incoming name is a vendor default per the adapter's
`DefaultNameCapability`) and routes the row through `updatePatch`.  The
adapter capability is modelled as an optional predicate on names. -/

/-- `PatchDataBaseImpl::hasDefaultName` (PatchDatabase.cpp:708-714): consults
the adapter's `DefaultNameCapability` when present, else `false`. -/
def hasDefaultName (isDefaultName : Option (String → Bool)) (patchName : String) : Bool :=
  match isDefaultName with
  | some isDefault => isDefault patchName
  | none => false

/-- The mask actually applied to a merge hit (`onlyUpdateThis` in
PatchDatabase.cpp:761-764): `updateChoice & ~UPDATE_NAME` (on the 32-bit
unsigned mask) when the incoming name is a default name. -/
def effectiveUpdateChoice (isDefaultName : Option (String → Bool)) (patchName : String)
    (updateChoice : Nat) : Nat :=
  if hasDefaultName isDefaultName patchName then
    updateChoice &&& (2 ^ 32 - 1 - UPDATE_NAME)
  else updateChoice

/-- The hit branch of `PatchDataBaseImpl::mergePatchesIntoDatabase`
(PatchDatabase.cpp:759-783) projected onto what happens to the stored row:
with the effective mask, either the full existing row is reloaded and passed
to `updatePatch`, or (when only the name would change) `updatePatch` runs
directly with `UPDATE_NAME`. -/
def mergeHitUpdate (isDefaultName : Option (String → Bool)) (patch existingRow : PatchHolderE)
    (updateChoice : Nat) : PatchHolderE :=
  let onlyUpdateThis := effectiveUpdateChoice isDefaultName patch.name updateChoice
  if onlyUpdateThis ≠ UPDATE_NAME then
    updatePatch patch existingRow onlyUpdateThis existingRow
  else
    updatePatch patch existingRow UPDATE_NAME existingRow

/-! ## Schema creation and migration (PatchDatabase.cpp:33-263)

The compiled schema constant of this source tree is `SCHEMA_VERSION = 6`
(PatchDatabase.cpp:36).  `DbState` models the observable state of a database
file: the value of the single `schema_version` row (`none` when the row is
missing), which tables exist, whether the default categories have been seeded,
and how many `-before-migration` backups have been produced during the open.
The `ALTER TABLE`/`UPDATE` statements of the v2-v5 migrations touch columns
that no claim observes, so only their `schema_version` updates appear. -/

inductive OpenMode where
  | READ_ONLY : OpenMode
  | READ_WRITE : OpenMode
  | READ_WRITE_NO_BACKUPS : OpenMode
deriving DecidableEq

def SCHEMA_VERSION : Nat := 6

structure DbState where
  schemaVersion : Option Nat
  hasPatches : Bool
  hasImports : Bool
  hasCategories : Bool
  hasSchemaVersionTable : Bool
  hasLists : Bool
  defaultCategoriesSeeded : Bool
  beforeMigrationBackups : Nat
deriving DecidableEq

/-- `PatchDataBaseImpl::backupIfNecessary` (PatchDatabase.cpp:90-95): takes the
`-before-migration` backup once per open, and only in read-write mode. -/
def backupIfNecessary (mode : OpenMode) (s : DbState) (done : Bool) : DbState × Bool :=
  if done = false ∧ mode = OpenMode.READ_WRITE then
    ({ s with beforeMigrationBackups := s.beforeMigrationBackups + 1 }, true)
  else (s, done)

/-- `PatchDataBaseImpl::migrateSchema` (PatchDatabase.cpp:127-169): a chain of
`if (currentVersion < k)` steps, each backing up if not yet done, applying its
DDL and writing `schema_version = k`.  The chain ends at version 6; there is no
v6→v7 step in this source.  The `currentVersion` parameter is the version read
before migration and is not re-read between steps. -/
def migrateSchema (mode : OpenMode) (currentVersion : Nat) (s : DbState) : DbState :=
  let done := false
  let (s, done) := if currentVersion < 2 then
      let (s, done) := backupIfNecessary mode s done
      ({ s with schemaVersion := some 2 }, done)
    else (s, done)
  let (s, done) := if currentVersion < 3 then
      let (s, done) := backupIfNecessary mode s done
      ({ s with schemaVersion := some 3 }, done)
    else (s, done)
  let (s, done) := if currentVersion < 4 then
      let (s, done) := backupIfNecessary mode s done
      ({ s with schemaVersion := some 4 }, done)
    else (s, done)
  let (s, done) := if currentVersion < 5 then
      let (s, done) := backupIfNecessary mode s done
      ({ s with schemaVersion := some 5 }, done)
    else (s, done)
  let (s, _) := if currentVersion < 6 then
      let (s, done) := backupIfNecessary mode s done
      let s := if s.hasCategories = false then
          { s with hasCategories := true, defaultCategoriesSeeded := true }
        else s
      ({ s with schemaVersion := some 6 }, done)
    else (s, done)
  s

/-- The table-creation half of `PatchDataBaseImpl::createSchema`
(PatchDatabase.cpp:189-221): every missing table is created at every open —
including `lists` and `patch_in_list`, which are not created by any migration
step.  Creating the `categories` table seeds the fifteen default categories
(`insertDefaultCategories`, PatchDatabase.cpp:171-187). -/
def createTables (s : DbState) : DbState :=
  let s := if s.hasPatches = false then { s with hasPatches := true } else s
  let s := if s.hasImports = false then { s with hasImports := true } else s
  let s := if s.hasCategories = false then
      { s with hasCategories := true, defaultCategoriesSeeded := true }
    else s
  let s := if s.hasSchemaVersionTable = false then { s with hasSchemaVersionTable := true } else s
  let s := if s.hasLists = false then { s with hasLists := true } else s
  s

/-- `PatchDataBaseImpl::createSchema` (PatchDatabase.cpp:189-263), the whole
open-time schema pass: create missing tables, read `schema_version`, migrate
upward when below the compiled constant, fail on a file from the future, and
insert the version row when it is absent. -/
def createSchema (mode : OpenMode) (s0 : DbState) : Except String DbState :=
  let s := createTables s0
  match s.schemaVersion with
  | some version =>
    if version < SCHEMA_VERSION then Except.ok (migrateSchema mode version s)
    else if SCHEMA_VERSION < version then
      Except.error "this was produced with a newer version of KnobKraft Orm"
    else Except.ok s
  | none => Except.ok { s with schemaVersion := some SCHEMA_VERSION }

/-! ## Base64 codec (JsonSerialization.cpp:42-61)

`JsonSerialization::dataToString` / `stringToData` delegate to
`boost::beast::detail::base64::encode/decode`; `encode64`, `base64Inverse`,
`decode64Flush` and `decode64Core` below are that boost implementation
translated byte for byte (standard alphabet, `=` padding, decoding stops at
the first non-alphabet character, a trailing partial group of 2 or 3 symbols
yields 1 or 2 bytes).

The critical detail of the calling code: `dataToString` allocates
`std::vector<char> buffer(2048)` and calls
`encode(buffer.data(), data.data(), buffer.size())` — the third argument of
boost's `encode` is the number of **input** bytes to encode, so the call
encodes 2048 bytes starting at `data.data()` regardless of `data.size()`
(reading past the vector when it is shorter; `junk` models those heap bytes).
`stringToData` calls `decode(outBuffer.data(), string.c_str(), 2048)`, whose
third argument limits the number of input **characters** read, and resizes the
output to the number of bytes written. -/

def base64Alphabet : List Char :=
  "ABCDEFGHIJKLMNOPQRSTUVWXYZabcdefghijklmnopqrstuvwxyz0123456789+/".toList

def base64Char (i : Nat) : Char := base64Alphabet.getD i '?'

/-- `boost::beast::detail::base64::encode`: three input bytes become four
alphabet characters; a trailing group of two or one bytes is padded with `=`. -/
def encode64 : List Nat → List Char
  | a :: b :: c :: rest =>
    base64Char ((a &&& 0xfc) >>> 2)
      :: base64Char (((a &&& 0x03) <<< 4) + ((b &&& 0xf0) >>> 4))
      :: base64Char (((c &&& 0xc0) >>> 6) + ((b &&& 0x0f) <<< 2))
      :: base64Char (c &&& 0x3f)
      :: encode64 rest
  | [a, b] =>
    [base64Char ((a &&& 0xfc) >>> 2),
     base64Char (((a &&& 0x03) <<< 4) + ((b &&& 0xf0) >>> 4)),
     base64Char ((b &&& 0x0f) <<< 2), '=']
  | [a] =>
    [base64Char ((a &&& 0xfc) >>> 2), base64Char ((a &&& 0x03) <<< 4), '=', '=']
  | [] => []

/-- The inverse alphabet table of boost's decoder: the 6-bit value of an
alphabet character, `none` for every other character (including `=`). -/
def base64Inverse (c : Char) : Option Nat :=
  let i := base64Alphabet.indexOf c
  if i < base64Alphabet.length then some i else none

/-- Boost decoder epilogue: a leftover group of 2 or 3 symbols yields 1 or 2
bytes; 0 or 1 leftover symbols yield nothing. -/
def decode64Flush : List Nat → List Nat
  | [a, b] => [((a <<< 2) + ((b &&& 0x30) >>> 4)) % 256]
  | [a, b, c] =>
    [((a <<< 2) + ((b &&& 0x30) >>> 4)) % 256,
     (((b &&& 0xf) <<< 4) + ((c &&& 0x3c) >>> 2)) % 256]
  | _ => []

/-- Boost decoder main loop: collect 6-bit values four at a time, emitting
three bytes per full group; stop at `=`, at any non-alphabet character, or at
the end of the permitted input length. -/
def decode64Core : List Char → List Nat → List Nat
  | [], group => decode64Flush group
  | ch :: rest, group =>
    if ch = '=' then decode64Flush group
    else
      match base64Inverse ch with
      | none => decode64Flush group
      | some v =>
        let group' := group ++ [v]
        if group'.length = 4 then
          (match group' with
           | [a, b, c, d] =>
             [((a <<< 2) + ((b &&& 0x30) >>> 4)) % 256,
              (((b &&& 0xf) <<< 4) + ((c &&& 0x3c) >>> 2)) % 256,
              (((c &&& 0x3) <<< 6) + d) % 256]
           | _ => [])
          ++ decode64Core rest []
        else decode64Core rest group'

/-- `JsonSerialization::dataToString` (JsonSerialization.cpp:42-53): encodes
exactly `buffer.size() = 2048` bytes starting at the vector's storage. `junk`
models the heap contents following the vector's `data.size()` bytes.  (The
source then asserts `lengthWritten < 2048` and copies `lengthWritten` bytes
out of the 2048-byte buffer; the returned value modelled here is the
nominally encoded character sequence.) -/
def dataToString (data junk : List Nat) : List Char :=
  encode64 ((data ++ junk).take 2048)

/-- `JsonSerialization::stringToData` (JsonSerialization.cpp:55-61): decodes
at most 2048 input characters into the 2048-byte output buffer and trims the
buffer to the number of bytes written. -/
def stringToData (s : List Char) : List Nat :=
  decode64Core (s.take 2048) []

theorem encode64_zero_chunk (l : List Nat) :
    encode64 (0 :: 0 :: 0 :: l) = 'A' :: 'A' :: 'A' :: 'A' :: encode64 l := rfl

theorem encode64_zero_blocks (n : Nat) (rest : List Nat) :
    encode64 (List.replicate (3 * n) 0 ++ rest)
      = List.replicate (4 * n) 'A' ++ encode64 rest := by
  induction n with
  | zero => simp
  | succ n ih =>
    have h3 : 3 * (n + 1) = 3 + 3 * n := by ring
    have h4 : 4 * (n + 1) = 4 + 4 * n := by ring
    rw [h3, h4, List.replicate_add, List.replicate_add]
    simp only [List.append_assoc]
    rw [show (List.replicate 3 (0 : Nat)) = [0, 0, 0] from rfl,
      show (List.replicate 4 'A') = ['A', 'A', 'A', 'A'] from rfl]
    simp only [List.cons_append, List.nil_append]
    rw [encode64_zero_chunk, ih]

theorem decode64_A_chunk (s : List Char) :
    decode64Core ('A' :: 'A' :: 'A' :: 'A' :: s) [] = 0 :: 0 :: 0 :: decode64Core s [] := rfl

theorem decode64_A_blocks (n : Nat) (s : List Char) :
    decode64Core (List.replicate (4 * n) 'A' ++ s) []
      = List.replicate (3 * n) 0 ++ decode64Core s [] := by
  induction n with
  | zero => simp
  | succ n ih =>
    have h3 : 3 * (n + 1) = 3 + 3 * n := by ring
    have h4 : 4 * (n + 1) = 4 + 4 * n := by ring
    rw [h3, h4, List.replicate_add, List.replicate_add]
    simp only [List.append_assoc]
    rw [show (List.replicate 4 'A') = ['A', 'A', 'A', 'A'] from rfl,
      show (List.replicate 3 (0 : Nat)) = [0, 0, 0] from rfl]
    simp only [List.cons_append, List.nil_append]
    rw [decode64_A_chunk, ih]

/-- The byte sequence `dataToString` actually encodes for a one-byte input
`[0x41]`: the 0x41, then 2047 junk bytes (taken to be zero). -/
theorem dataToString_41_eval :
    dataToString [0x41] (List.replicate 2047 0)
      = 'Q' :: 'Q' :: 'A' :: 'A'
          :: (List.replicate (4 * 681) 'A' ++ ['A', 'A', 'A', '=']) := by
  have hsplit : (([0x41] : List Nat) ++ List.replicate 2047 0)
      = 0x41 :: 0 :: 0 :: (List.replicate (3 * 681) 0 ++ [0, 0]) := by
    have : (2047 : Nat) = 2 + (3 * 681 + 2) := by norm_num
    rw [this, List.replicate_add, List.replicate_add]
    rfl
  have hlen : (([0x41] : List Nat) ++ List.replicate 2047 0).length = 2048 := by
    simp
  rw [dataToString, List.take_of_length_le (le_of_eq hlen), hsplit]
  rw [show encode64 (0x41 :: 0 :: 0 :: (List.replicate (3 * 681) 0 ++ [0, 0]))
      = 'Q' :: 'Q' :: 'A' :: 'A' :: encode64 (List.replicate (3 * 681) 0 ++ [0, 0]) from rfl]
  rw [encode64_zero_blocks]
  rfl

theorem decode64_QQAA_chunk (s : List Char) :
    decode64Core ('Q' :: 'Q' :: 'A' :: 'A' :: s) []
      = 0x41 :: 0 :: 0 :: decode64Core s [] := rfl

/-- What `stringToData` recovers from that encoding: the first 2048 characters
decode to 1536 bytes — `0x41` followed by 1535 zeros. -/
theorem stringToData_of_dataToString_41 :
    stringToData (dataToString [0x41] (List.replicate 2047 0))
      = 0x41 :: List.replicate 1535 0 := by
  rw [dataToString_41_eval, stringToData]
  have hassoc : ('Q' :: 'Q' :: 'A' :: 'A'
        :: (List.replicate (4 * 681) 'A' ++ ['A', 'A', 'A', '=']))
      = (['Q', 'Q', 'A', 'A'] ++ List.replicate (4 * 681) 'A') ++ ['A', 'A', 'A', '='] := rfl
  have htake : List.take 2048
      ('Q' :: 'Q' :: 'A' :: 'A' :: (List.replicate (4 * 681) 'A' ++ ['A', 'A', 'A', '=']))
      = ['Q', 'Q', 'A', 'A'] ++ List.replicate 2044 'A' := by
    rw [hassoc]
    rw [List.take_append_eq_append_take, List.take_append_eq_append_take]
    rw [show List.take 2048 (['Q', 'Q', 'A', 'A'] : List Char) = ['Q', 'Q', 'A', 'A'] from rfl]
    rw [show ((['Q', 'Q', 'A', 'A'] : List Char)).length = 4 from rfl]
    rw [show (2048 : Nat) - 4 = 2044 from by norm_num]
    rw [List.take_replicate]
    rw [show min 2044 (4 * 681) = 2044 from by norm_num]
    have hl2 : ((['Q', 'Q', 'A', 'A'] : List Char) ++ List.replicate (4 * 681) 'A').length
        = 2728 := by
      rw [List.length_append, List.length_replicate]
      rfl
    rw [hl2, show (2048 : Nat) - 2728 = 0 from by norm_num, List.take_zero, List.append_nil]
  rw [htake]
  rw [show (['Q', 'Q', 'A', 'A'] : List Char) ++ List.replicate 2044 'A'
      = 'Q' :: 'Q' :: 'A' :: 'A' :: List.replicate 2044 'A' from rfl]
  rw [decode64_QQAA_chunk]
  rw [show List.replicate 2044 'A' = List.replicate (4 * 511) 'A' ++ ([] : List Char) from by
    rw [List.append_nil, show (4 * 511 : Nat) = 2044 from by norm_num]]
  rw [decode64_A_blocks]
  rw [show decode64Core [] [] = [] from rfl]
  rw [List.append_nil]
  rw [show (0x41 : Nat) :: 0 :: 0 :: List.replicate (3 * 511) 0
      = 0x41 :: List.replicate 1535 0 from by
    rw [show (1535 : Nat) = 2 + 3 * 511 from by norm_num, List.replicate_add]
    rfl]

/-! ## Backup pruning (PatchDatabase.cpp:98-125)

`PatchDataBaseImpl::manageBackupDiskspace` runs at every open (constructor,
PatchDatabase.cpp:48-55).  It lists the backup files, sorts them newest first
(`FileDateComparatorNewestFirst`), then walks the list accumulating the total
size seen so far; a file is deleted when the running total exceeds
500,000,000 bytes **and** more than two files have been kept already,
otherwise it is kept.  A failed deletion is logged and walking continues, and
the keep/delete decisions do not depend on whether a deletion succeeded.  The
decision pass is a pure function of the size list; `true` means kept. -/

def pruneBackupsAux : Nat → Nat → List Nat → List Bool
  | _, _, [] => []
  | backupSize, numKept, fileSize :: rest =>
    let backupSize' := backupSize + fileSize
    if 500000000 < backupSize' ∧ 2 < numKept then
      false :: pruneBackupsAux backupSize' numKept rest
    else
      true :: pruneBackupsAux backupSize' (numKept + 1) rest

/-- The keep/delete decisions of `manageBackupDiskspace` over the backup files
sorted by modification time, newest first (sizes in bytes). -/
def manageBackupDiskspace (sizes : List Nat) : List Bool :=
  pruneBackupsAux 0 0 sizes

theorem pruneBackupsAux_spec (rest : List Nat) : ∀ (pos nk bs : Nat),
    (nk = pos ∨ (3 ≤ nk ∧ 500000000 < bs ∧ 3 ≤ pos)) →
    pruneBackupsAux bs nk rest =
      (List.range rest.length).map
        (fun i => decide (pos + i + 1 ≤ 3 ∨ bs + (rest.take (i + 1)).sum ≤ 500000000)) := by
  induction rest with
  | nil => intro pos nk bs _; rfl
  | cons f rest ih =>
    intro pos nk bs hinv
    rw [List.length_cons, List.range_succ_eq_map, List.map_cons, List.map_map]
    simp only [pruneBackupsAux]
    by_cases hdel : 500000000 < bs + f ∧ 2 < nk
    · -- this file is deleted; afterwards every file is deleted
      rw [if_pos hdel]
      have hpos3 : 3 ≤ pos := by
        rcases hinv with h | h
        · omega
        · exact h.2.2
      have hhead : decide (pos + 0 + 1 ≤ 3 ∨ bs + ((f :: rest).take (0 + 1)).sum ≤ 500000000)
          = false := by
        simp only [List.take, List.sum_cons, List.sum_nil]
        have : ¬ (pos + 0 + 1 ≤ 3 ∨ bs + (f + 0) ≤ 500000000) := by omega
        simpa using this
      rw [hhead]
      congr 1
      rw [ih (pos + 1) nk (bs + f) (Or.inr ⟨by omega, by omega, by omega⟩)]
      apply List.map_congr_left
      intro i _
      simp only [Function.comp]
      congr 1
      have htake : ((f :: rest).take (i + 1 + 1)).sum = f + (rest.take (i + 1)).sum := by
        simp [List.take, List.sum_cons]
      rw [htake]
      have : (pos + 1 + i + 1 ≤ 3 ∨ bs + f + (rest.take (i + 1)).sum ≤ 500000000)
          ↔ (pos + (i + 1) + 1 ≤ 3 ∨ bs + (f + (rest.take (i + 1)).sum) ≤ 500000000) := by
        omega
      simp only [eq_iff_iff, decide_eq_decide]
      exact this
    · -- this file is kept
      rw [if_neg hdel]
      have hkeep : nk = pos := by
        rcases hinv with h | h
        · exact h
        · exfalso; exact hdel ⟨by omega, by omega⟩
      have hhead : decide (pos + 0 + 1 ≤ 3 ∨ bs + ((f :: rest).take (0 + 1)).sum ≤ 500000000)
          = true := by
        simp only [List.take, List.sum_cons, List.sum_nil]
        have : pos + 0 + 1 ≤ 3 ∨ bs + (f + 0) ≤ 500000000 := by omega
        simpa using this
      rw [hhead]
      congr 1
      rw [ih (pos + 1) (nk + 1) (bs + f) (Or.inl (by omega))]
      apply List.map_congr_left
      intro i _
      simp only [Function.comp]
      have htake : ((f :: rest).take (i + 1 + 1)).sum = f + (rest.take (i + 1)).sum := by
        simp [List.take, List.sum_cons]
      rw [htake]
      have : (pos + 1 + i + 1 ≤ 3 ∨ bs + f + (rest.take (i + 1)).sum ≤ 500000000)
          ↔ (pos + (i + 1) + 1 ≤ 3 ∨ bs + (f + (rest.take (i + 1)).sum) ≤ 500000000) := by
        omega
      simp only [eq_iff_iff, decide_eq_decide]
      exact this

/-! ## putPatch (PatchDatabase.cpp:265-292)

The single-row insert prepares an `INSERT INTO patches ...` statement inside a
`try`-block.  The embedding abstracts the SQL engine's behaviour as an
`SqlOutcome`: either the insert succeeds, or it throws `SQLite::Exception`
with some message.  The function's observable result is the returned `Bool`
and the list of logger messages. -/

inductive SqlOutcome where
  | ok : SqlOutcome
  | fail : String → SqlOutcome
deriving DecidableEq

/-- `PatchDataBaseImpl::putPatch` (PatchDatabase.cpp:265-292): on an SQL
exception the catch-block posts a diagnostic to the logger; the function then
falls through to its only return statement, `return true`, regardless of the
outcome. -/
def putPatch (outcome : SqlOutcome) : Bool × List String :=
  match outcome with
  | .ok => (true, [])
  | .fail msg => (true, ["DATABASE ERROR in putPatch: SQL Exception " ++ msg])

end MidiKraft

namespace MidiKraft

/-! ## Theorems for the category-merge claims -/

/-- C2: when a merge updates an existing patch with `UPDATE_CATEGORIES` set in
the update mask, the stored category set afterwards is
`(inc.cats ∩ inc.ud) ∪ ((inc.cats − inc.ud) − ex.ud) ∪ ((ex.cats ∩ ex.ud) − inc.ud)`
and the stored user-decision set is `inc.ud ∪ ex.ud`. -/
theorem c2_merged_categories_formula (newPatch existingPatch row : PatchHolderE)
    (updateChoices : Nat) (h : updateChoices &&& UPDATE_CATEGORIES ≠ 0) :
    (updatePatch newPatch existingPatch updateChoices row).categories =
      (newPatch.categories ∩ newPatch.userDecisions)
        ∪ ((newPatch.categories \ newPatch.userDecisions) \ existingPatch.userDecisions)
        ∪ ((existingPatch.categories ∩ existingPatch.userDecisions) \ newPatch.userDecisions)
    ∧ (updatePatch newPatch existingPatch updateChoices row).userDecisions =
      newPatch.userDecisions ∪ existingPatch.userDecisions := by
  have hnz : updateChoices ≠ 0 := by
    intro hz
    subst hz
    simp at h
  constructor
  · simp only [updatePatch, hnz, if_pos, h, if_true, ite_true, ne_eq, not_false_iff]
    simp [calculateMergedCategories, category_union, category_intersection, category_difference]
  · simp only [updatePatch, hnz, if_pos, h, if_true, ite_true, ne_eq, not_false_iff]
    simp [calculateMergedCategories, category_union, category_intersection, category_difference]

/-- Witness for `c2_merged_categories_formula` at a concrete input. -/
theorem c2_merged_categories_formula_witness :
    (UPDATE_ALL &&& UPDATE_CATEGORIES ≠ 0)
    ∧ ((updatePatch
          ⟨"inc", {0, 1}, {1}, false, 0, []⟩
          ⟨"ex", {2}, {2, 0}, false, 0, []⟩
          UPDATE_ALL
          ⟨"ex", {2}, {2, 0}, false, 0, []⟩).categories =
        (({0, 1} : Finset Nat) ∩ {1}) ∪ ((({0, 1} : Finset Nat) \ {1}) \ {2, 0})
          ∪ ((({2} : Finset Nat) ∩ {2, 0}) \ {1})) := by
  refine ⟨by decide, ?_⟩
  exact (c2_merged_categories_formula
    ⟨"inc", {0, 1}, {1}, false, 0, []⟩
    ⟨"ex", {2}, {2, 0}, false, 0, []⟩
    ⟨"ex", {2}, {2, 0}, false, 0, []⟩
    UPDATE_ALL (by decide)).1

/-- C3: a prior user decision is never overwritten by the other side's
automatic tagging: if category `i` carries a user decision on the existing
patch and none on the incoming patch, then after the category merge `i` is in
the merged category set iff it was in the existing patch's categories. -/
theorem c3_user_decision_preserved (newPatch existingPatch : PatchHolderE) (i : Nat)
    (hEx : i ∈ existingPatch.userDecisions) (hInc : i ∉ newPatch.userDecisions) :
    (i ∈ (calculateMergedCategories newPatch existingPatch).categories
      ↔ i ∈ existingPatch.categories) := by
  simp [calculateMergedCategories, category_union, category_intersection, category_difference,
    Finset.mem_union, Finset.mem_inter, Finset.mem_sdiff, hEx, hInc]

/-- Witness for `c3_user_decision_preserved` at a concrete input. -/
theorem c3_user_decision_preserved_witness :
    (5 ∈ ({5} : Finset Nat)) ∧ (5 ∉ (∅ : Finset Nat))
    ∧ (5 ∈ (calculateMergedCategories ⟨"inc", {7}, ∅, false, 0, []⟩
        ⟨"ex", {5}, {5}, false, 0, []⟩).categories ↔ 5 ∈ ({5} : Finset Nat)) := by
  refine ⟨by decide, by decide, ?_⟩
  exact c3_user_decision_preserved ⟨"inc", {7}, ∅, false, 0, []⟩
    ⟨"ex", {5}, {5}, false, 0, []⟩ 5 (by decide) (by decide)

/-! ## Theorems about the categories table operations -/

/-- C10: `getNextBitindex` returns `MAX(bitIndex)+1` when that value is below
63 and `-1` otherwise; in particular a single definition at bit index 62 makes
it return `-1` although every lower bit index is unused — freed gaps are never
reused. -/
theorem c10_next_bitindex (bitIndexes : List Int) (m : Int)
    (h : bitIndexes.max? = some m) :
    getNextBitindex bitIndexes = (if m + 1 < 63 then m + 1 else -1)
    ∧ getNextBitindex [62] = -1 ∧ (0 : Int) ∉ ([62] : List Int) := by
  refine ⟨?_, by decide, by decide⟩
  simp only [getNextBitindex, getNextBitindexLog, h]
  split <;> simp_all

/-- Witness for `c10_next_bitindex` at a concrete input. -/
theorem c10_next_bitindex_witness :
    (([5] : List Int).max? = some 5) ∧ getNextBitindex [5] = 6 := by
  refine ⟨by decide, ?_⟩
  have h := (c10_next_bitindex [5] 5 (by decide)).1
  simpa using h

/-- A `categories` table holding 63 active definitions occupying every bit
index `0..62` — the exhaustion scenario of claim C5. -/
def fullCategoriesTable : List CategoryDefRow :=
  (List.range 63).map (fun i => ⟨(i : Int), "Cat" ++ toString i, "ffaabbcc", true⟩)

theorem fullCategoriesTable_length : fullCategoriesTable.length = 63 := by
  rfl

/-- A 64th category definition at the next bit index. -/
def extraCategoryDef : CategoryDefRow := ⟨63, "New", "ff000000", true⟩

/-- C5 counterexample: with all 63 bit indexes in use `getNextBitindex` does
return `-1`, but `updateCategories` does **not** refuse a further definition:
passing one more definition changes the categories table (it inserts a 64th
row), contradicting "refused ... leaving the categories table unchanged". -/
theorem c5_counterexample :
    getNextBitindex (fullCategoriesTable.map CategoryDefRow.id) = -1
    ∧ updateCategories fullCategoriesTable [extraCategoryDef] ≠ fullCategoriesTable := by
  constructor
  · decide
  · intro hEq
    have hNew : updateCategories fullCategoriesTable [extraCategoryDef]
        = fullCategoriesTable ++ [extraCategoryDef] := by decide
    have hLen := congrArg List.length (hNew ▸ hEq)
    rw [List.length_append, fullCategoriesTable_length] at hLen
    simp at hLen

/-- C5 amended: with 63 active categories `getNextBitindexLog` posts the
exhaustion diagnostic and returns `-1`; `updateCategories` itself performs any
upsert it is given unconditionally — handed a definition with the fresh bit
index 63 it appends a 64th row.  Refusing creation is left to callers that
consult `getNextBitindex`. -/
theorem c5_exhaustion_behavior :
    getNextBitindexLog (fullCategoriesTable.map CategoryDefRow.id) =
      (-1, ["You have exhausted the 63 possible categories, it is no longer possible to create new ones in this database. Consider splitting the database via PatchInterchangeFormat files"])
    ∧ updateCategories fullCategoriesTable [extraCategoryDef]
        = fullCategoriesTable ++ [extraCategoryDef] := by
  constructor
  · decide
  · decide

/-! ## Theorems about putPatch error handling -/

/-- C9 counterexample: when the underlying `INSERT` throws, `putPatch` does not
return `false` — the `catch` block only logs, and the function's single
`return true` statement runs regardless. -/
theorem c9_counterexample :
    (putPatch (SqlOutcome.fail "disk I/O error")).fst ≠ false := by
  decide

/-- C9 amended: an SQL-level failure of the single-row insert is logged, but
`putPatch` returns `true` regardless of the outcome — its boolean return value
never signals failure. -/
theorem c9_putpatch_logs_but_returns_true (msg : String) :
    putPatch (SqlOutcome.fail msg) =
      (true, ["DATABASE ERROR in putPatch: SQL Exception " ++ msg])
    ∧ putPatch SqlOutcome.ok = (true, []) :=
  ⟨rfl, rfl⟩

/-! ## Theorem about backup pruning -/

/-- C8: as a pure function of the backup file sizes (sorted by modification
time, newest first), the pruning pass keeps exactly the files at positions `i`
with `i + 1 ≤ 3` or cumulative size of the first `i + 1` files at most
500,000,000 bytes, and deletes every other file; since that predicate is
antitone in `i`, the kept files are exactly the first `N` such files and all
later ones are deleted (the second conjunct states the prefix property
explicitly). -/
theorem c8_backup_pruning (sizes : List Nat) :
    manageBackupDiskspace sizes =
      (List.range sizes.length).map
        (fun i => decide (i + 1 ≤ 3 ∨ (sizes.take (i + 1)).sum ≤ 500000000))
    ∧ (∀ i j : Nat, i ≤ j → (manageBackupDiskspace sizes).getD j false = true →
        (manageBackupDiskspace sizes).getD i false = true) := by
  have hmain : manageBackupDiskspace sizes =
      (List.range sizes.length).map
        (fun i => decide (i + 1 ≤ 3 ∨ (sizes.take (i + 1)).sum ≤ 500000000)) := by
    have h := pruneBackupsAux_spec sizes 0 0 0 (Or.inl rfl)
    simpa using h
  refine ⟨hmain, ?_⟩
  intro i j hij hj
  rw [hmain] at hj ⊢
  set g := fun i => decide (i + 1 ≤ 3 ∨ (sizes.take (i + 1)).sum ≤ 500000000) with hg
  have hlen : ((List.range sizes.length).map g).length = sizes.length := by simp
  by_cases hjr : j < sizes.length
  · have hir : i < sizes.length := lt_of_le_of_lt hij hjr
    have hjget : ((List.range sizes.length).map g).getD j false = g j := by
      rw [List.getD_eq_getElem _ _ (by simpa [hlen] using hjr)]
      simp
    have higet : ((List.range sizes.length).map g).getD i false = g i := by
      rw [List.getD_eq_getElem _ _ (by simpa [hlen] using hir)]
      simp
    rw [hjget] at hj
    rw [higet]
    rw [hg] at hj ⊢
    simp only [decide_eq_true_eq] at hj ⊢
    rcases hj with h3 | hsum
    · exact Or.inl (by omega)
    · right
      have hsplit := congrArg List.sum (List.take_append_drop (i + 1) (sizes.take (j + 1)))
      rw [List.sum_append, List.take_take] at hsplit
      have hmin : min (i + 1) (j + 1) = i + 1 := by omega
      rw [hmin] at hsplit
      omega
  · exfalso
    have : ((List.range sizes.length).map g).getD j false = false := by
      apply List.getD_eq_default
      omega
    rw [this] at hj
    exact Bool.noConfusion hj

/-! ## Theorems about schema migration -/

/-- A database file at schema version 5: `patches`, `imports` and
`schema_version` exist (with the version row at 5); the `categories`, `lists`
and `patch_in_list` tables do not exist yet. -/
def v5File : DbState :=
  { schemaVersion := some 5, hasPatches := true, hasImports := true,
    hasCategories := false, hasSchemaVersionTable := true, hasLists := false,
    defaultCategoriesSeeded := false, beforeMigrationBackups := 0 }

/-- C4 counterexample: opening the v5 file read-write leaves `schema_version`
at 6, not 7 — the compiled `SCHEMA_VERSION` of this source is 6 and no v6→v7
migration exists. -/
theorem c4_counterexample :
    (createSchema OpenMode.READ_WRITE v5File).map DbState.schemaVersion
      = Except.ok (some 6)
    ∧ (Except.ok (some 6) : Except String (Option Nat)) ≠ Except.ok (some 7) := by
  refine ⟨rfl, ?_⟩
  intro h
  simp at h

/-- C4 amended: opening a file whose `schema_version` is 5 in read-write mode
produces exactly one `-before-migration` backup and applies the single
remaining migration v5→v6, whose category seeding is skipped because
`createSchema` has already created (and seeded) the `categories` table;
`lists` and `patch_in_list` are created by `createSchema` at every open rather
than by a migration, and `schema_version` equals 6 — the compiled
`SCHEMA_VERSION` — afterwards. -/
theorem c4_v5_open_migrates_to_6 (s : DbState) (h : s.schemaVersion = some 5) :
    ∃ s', createSchema OpenMode.READ_WRITE s = Except.ok s'
      ∧ s'.beforeMigrationBackups = s.beforeMigrationBackups + 1
      ∧ s'.schemaVersion = some SCHEMA_VERSION
      ∧ s'.schemaVersion = some 6
      ∧ s'.hasLists = true
      ∧ s'.hasCategories = true
      ∧ (s.hasCategories = false → s'.defaultCategoriesSeeded = true) := by
  obtain ⟨ver, p, i, c, v, l, d, b⟩ := s
  simp only at h
  subst h
  cases p <;> cases i <;> cases c <;> cases v <;> cases l <;> cases d <;>
    refine ⟨_, rfl, rfl, rfl, rfl, rfl, rfl, fun hc => ?_⟩ <;>
    first
    | rfl
    | exact Bool.noConfusion hc

/-- Witness for `c4_v5_open_migrates_to_6` at the concrete v5 file. -/
theorem c4_v5_open_migrates_to_6_witness :
    v5File.schemaVersion = some 5
    ∧ ∃ s', createSchema OpenMode.READ_WRITE v5File = Except.ok s'
        ∧ s'.beforeMigrationBackups = v5File.beforeMigrationBackups + 1
        ∧ s'.schemaVersion = some SCHEMA_VERSION
        ∧ s'.schemaVersion = some 6
        ∧ s'.hasLists = true
        ∧ s'.hasCategories = true
        ∧ (v5File.hasCategories = false → s'.defaultCategoriesSeeded = true) :=
  ⟨rfl, c4_v5_open_migrates_to_6 v5File rfl⟩

/-! ## Theorems about the category bitfield codec -/

/-- The active definitions of a database in which the definition at bit index 1
is inactive: `getCategories` then loads only the definitions at bit indexes 0
and 2, in ascending order. -/
def gappedActiveDefs : List BitName :=
  [⟨"Lead", 0, "ff8dd3c7"⟩, ⟨"Brass", 2, "ff4a75b2"⟩]

/-- C1: encoding the singleton set of the active category `Brass` (bit index 2)
produces mask `4`, but decoding mask `4` yields the empty set — the decoder
indexes the active-definition vector by bit position (position 2 is past the
end of the two-element vector, the source's `jassertfalse` branch), while the
encoder uses the `bitIndex` field.  Hence `decode (encode S) ≠ S` for the
active-category set `S = {Brass}`, refuting the round-trip claim; the inactive
part of the claim does hold: a name with no active definition encodes to mask
`0`, which decodes to `∅`. -/
theorem c1_bitfield_roundtrip_failure :
    categorySetAsBitfield gappedActiveDefs ["Brass"] = 4
    ∧ makeSetOfCategoriesFromBitfield gappedActiveDefs
        (categorySetAsBitfield gappedActiveDefs ["Brass"]) = (∅ : Finset String)
    ∧ (∅ : Finset String) ≠ ({"Brass"} : Finset String)
    ∧ categorySetAsBitfield gappedActiveDefs ["Pad"] = 0
    ∧ makeSetOfCategoriesFromBitfield gappedActiveDefs 0 = (∅ : Finset String) := by
  refine ⟨by decide, by decide, by decide, by decide, by decide⟩

/-! ## Theorem about the base64 round trip -/

/-- C7: the base64 round trip fails.  `dataToString` passes `buffer.size()`
(2048) instead of `data.size()` as the encoder's input-length argument, so for
the one-byte vector `x = [0x41]` (with the 2047 heap bytes after it taken as
zero) the encoded string has 2732 characters — already violating the source's
own `jassert(lengthWritten < 2048)` and overrunning the 2048-byte buffer —
and `stringToData (dataToString x)` is a 1536-byte vector, not `x`. -/
theorem c7_base64_roundtrip_failure :
    (dataToString [0x41] (List.replicate 2047 0)).length = 2732
    ∧ ¬ (dataToString [0x41] (List.replicate 2047 0)).length < 2048
    ∧ stringToData (dataToString [0x41] (List.replicate 2047 0))
        = 0x41 :: List.replicate 1535 0
    ∧ stringToData (dataToString [0x41] (List.replicate 2047 0)) ≠ [0x41] := by
  have hlen : (dataToString [0x41] (List.replicate 2047 0)).length = 2732 := by
    rw [dataToString_41_eval]
    simp only [List.length_cons, List.length_append, List.length_replicate]
    norm_num
  refine ⟨hlen, by rw [hlen]; norm_num, stringToData_of_dataToString_41, ?_⟩
  rw [stringToData_of_dataToString_41]
  intro h
  have hl := congrArg List.length h
  rw [List.length_cons, List.length_replicate] at hl
  norm_num at hl

/-! ## Theorems about default-name protection during merge -/

/-- C6: when an incoming patch hits an existing row and the incoming name is a
vendor default (per the adapter's `is_default_name` capability) while the
existing row's name is not, the `UPDATE_NAME` bit of the effective update mask
is cleared and the stored name is unchanged. -/
theorem c6_default_name_protected (isDefault : String → Bool)
    (patch existingRow : PatchHolderE) (updateChoice : Nat)
    (hInc : isDefault patch.name = true) (_hEx : isDefault existingRow.name = false) :
    effectiveUpdateChoice (some isDefault) patch.name updateChoice &&& UPDATE_NAME = 0
    ∧ (mergeHitUpdate (some isDefault) patch existingRow updateChoice).name
        = existingRow.name := by
  have hDef : hasDefaultName (some isDefault) patch.name = true := hInc
  have hEff : effectiveUpdateChoice (some isDefault) patch.name updateChoice
      = updateChoice &&& (2 ^ 32 - 1 - UPDATE_NAME) := by
    simp [effectiveUpdateChoice, hDef]
  have hBit : effectiveUpdateChoice (some isDefault) patch.name updateChoice &&& UPDATE_NAME = 0 := by
    rw [hEff, UPDATE_NAME, Nat.land_assoc]
    norm_num
  refine ⟨hBit, ?_⟩
  have hNe : effectiveUpdateChoice (some isDefault) patch.name updateChoice ≠ UPDATE_NAME := by
    intro hcontra
    rw [hcontra] at hBit
    simp [UPDATE_NAME] at hBit
  simp only [mergeHitUpdate, hNe, if_pos, ite_true, ne_eq, not_false_iff]
  by_cases hz : effectiveUpdateChoice (some isDefault) patch.name updateChoice = 0
  · simp [updatePatch, hz]
  · simp only [updatePatch, hz, ne_eq, not_false_iff, if_true, ite_true]
    simp [hBit]

/-- Witness for `c6_default_name_protected` at a concrete input. -/
theorem c6_default_name_protected_witness :
    ((fun s => decide (s = "INIT")) ((⟨"INIT", ∅, ∅, false, 0, []⟩ : PatchHolderE)).name = true)
    ∧ ((fun s => decide (s = "INIT")) ((⟨"My Sound", ∅, ∅, false, 0, []⟩ : PatchHolderE)).name = false)
    ∧ (mergeHitUpdate (some (fun s => decide (s = "INIT")))
        ⟨"INIT", ∅, ∅, false, 0, []⟩ ⟨"My Sound", ∅, ∅, false, 0, []⟩ UPDATE_ALL).name
        = "My Sound" := by
  refine ⟨by decide, by decide, ?_⟩
  exact (c6_default_name_protected (fun s => decide (s = "INIT"))
    ⟨"INIT", ∅, ∅, false, 0, []⟩ ⟨"My Sound", ∅, ∅, false, 0, []⟩ UPDATE_ALL
    (by decide) (by decide)).2

end MidiKraft
